import Mathlib

/-!
Verification development for the beekeeper honey-vending Tasmota driver
(full variant: coin counting, per-box pricing, solenoid locks, stepper coin
gate, LCD, button matrix).  The definitions below are a shallow embedding of
the driver source: each Lean definition mirrors one C function of the driver,
with the process-wide `vending` struct made explicit as a `VendingState`
value, `millis()` and `Rtc.utc_time` passed as explicit `now` or `utc`
arguments, and persistence or MQTT side effects recorded as an event list.
Unsigned 32-bit arithmetic on timestamps is modelled with explicit reduction
modulo 2 ^ 32, and the 16-bit signed motor offset with explicit wraparound
into the interval from -32768 to 32767.
-/

namespace Beekeeper

/-! Numeric constants, each taken verbatim from the driver's defines. -/

def NUM_SHIFT_REGISTERS : Nat := 4

def UNLOCK_DURATION_MS : Nat := 60000

def SOLENOID_ACTIVE_HIGH : Bool := true

def COIN_TIMEOUT_MS : Nat := 200

def DEFAULT_PRICE_CENTS : Nat := 500

def PULSE_DEBOUNCE_MS : Nat := 5

def MAX_HONEY_BOX_COUNT : Nat := 30

def DEFAULT_HONEY_BOX_COUNT : Nat := 15

def MOTOR_STEPS_PER_REV : Nat := 200

def MOTOR_STEP_DELAY_US : Nat := 2000

def MOTOR_45DEG_STEPS : Nat := MOTOR_STEPS_PER_REV * 45 / 360

def LCD_COLS : Nat := 16

def LCD_ROWS : Nat := 2

/-- Truncation to an unsigned 32-bit value, the type of `millis()` and of the
driver's timestamp fields. -/
def u32 (n : Nat) : Nat := n % 2 ^ 32

/-- The C expression `now - start` evaluated on `uint32_t` operands: the
difference is taken modulo 2 ^ 32, which is how the driver measures elapsed
time in `HoneyVending_Every100ms` and `CheckUnlockTimeout`. -/
def elapsed32 (now start : Nat) : Nat := u32 (u32 now + 2 ^ 32 - u32 start)

/-- The process-wide `vending` struct of the driver, with the per-box arrays
modelled as functions from 0-based array index to stored value. -/
structure VendingState where
  pulse_count : Nat
  last_pulse_ms : Nat
  first_pulse_ms : Nat
  total_cents : Nat
  last_coin_cents : Nat
  coins_detected : Nat
  honey_available : Bool
  initialized : Bool
  box_count : Nat
  selected_box_id : Nat
  box_status : Nat → Bool
  box_price : Nat → Nat
  box_last_changed : Nat → Nat
  discovery_sent : Bool
  shift_reg_state : Nat → Nat
  unlock_start_ms : Nat
  unlocked_box_id : Nat
  lcd_initialized : Bool
  mcp_initialized : Bool
  last_button_state : Nat
  last_check : Nat

/-- Pointwise update of an array modelled as a function. -/
def updF {α : Type} (f : Nat → α) (i : Nat) (v : α) : Nat → α :=
  fun j => if j = i then v else f j

/-- An MQTT message as handed to the host's `MqttPublish(topic, retained)`,
which sends the prepared response buffer to `topic`. -/
structure MqttMsg where
  topic : String
  payload : String
  retained : Bool
deriving DecidableEq, Repr

/-- Side effects of the driver recorded for the theorems: settings-store
saves and MQTT publishes, each corresponding to one helper call in the
source. -/
inductive Event where
  | publishSystem
  | publishBox (box_id : Nat)
  | publishSummary
  | publishAllBoxes
  | publishDiscovery
  | saveStatus
  | savePrices
  | saveBoxCount
  | mqtt (msg : MqttMsg)
deriving DecidableEq, Repr

/-! Pulse decoding, from `PulsesToCents` (identical in both driver files). -/

/-- Embedding of `PulsesToCents`: exact-match lookup from pulse count to coin
value in cents. -/
def PulsesToCents (pulses : Nat) : Nat :=
  if pulses = 1 then 10
  else if pulses = 2 then 20
  else if pulses = 5 then 50
  else if pulses = 10 then 100
  else if pulses = 20 then 200
  else 0

/-! Shift register and solenoid lock control. -/

/-- Embedding of `ShiftReg_SetBit`: reject a bit position beyond the chain
capacity, otherwise set or clear one bit of the in-memory mirror of the
shift-register chain (the subsequent `ShiftReg_Write` pushes the mirror to
hardware and changes no driver state).  Clearing uses the C pattern
`reg &= ~(1 << bit)` on a `uint32_t`, i.e. a mask of `0xFFFFFFFF` with one
bit removed. -/
def ShiftReg_SetBit (s : VendingState) (bit_position : Nat) (b : Bool) :
    VendingState :=
  if bit_position ≥ NUM_SHIFT_REGISTERS * 8 then s
  else
    let register_index := bit_position / 8
    let bit_index := bit_position % 8
    let v := s.shift_reg_state register_index
    let v2 := if b then v ||| (1 <<< bit_index)
              else v &&& (0xFFFFFFFF ^^^ (1 <<< bit_index))
    { s with shift_reg_state := updF s.shift_reg_state register_index v2 }

/-- Embedding of `LockBoxKey`: range-check the box id against the configured
box count, drive the box's bit to the locked polarity, and clear the unlock
tracking fields when the box was the tracked unlocked one. -/
def LockBoxKey (s : VendingState) (box_id : Nat) : VendingState :=
  if box_id < 1 ∨ box_id > s.box_count then s
  else
    let s1 := ShiftReg_SetBit s (box_id - 1) (!SOLENOID_ACTIVE_HIGH)
    if s1.unlocked_box_id = box_id then
      { s1 with unlocked_box_id := 0, unlock_start_ms := 0 }
    else s1

/-- Embedding of `UnlockBoxKey`: validate the id against the box count and
the physical output capacity, re-lock any previously unlocked box, drive the
new box's bit to the unlock polarity, and record the unlock tracking
fields. -/
def UnlockBoxKey (s : VendingState) (box_id : Nat) (now : Nat) :
    VendingState :=
  if box_id < 1 ∨ box_id > s.box_count then s
  else if box_id > NUM_SHIFT_REGISTERS * 8 then s
  else
    let s1 := if s.unlocked_box_id > 0 then LockBoxKey s s.unlocked_box_id
              else s
    let s2 := ShiftReg_SetBit s1 (box_id - 1) SOLENOID_ACTIVE_HIGH
    { s2 with unlocked_box_id := box_id, unlock_start_ms := u32 now }

/-- Embedding of `CheckUnlockTimeout`: on every 100 ms tick, re-lock the
tracked unlocked box once 60,000 ms have elapsed since the unlock started. -/
def CheckUnlockTimeout (s : VendingState) (now : Nat) : VendingState :=
  if s.unlocked_box_id > 0 then
    if elapsed32 now s.unlock_start_ms ≥ UNLOCK_DURATION_MS then
      LockBoxKey s s.unlocked_box_id
    else s
  else s

/-- A shift-register output line is at the unlock polarity exactly when its
mirror bit equals `SOLENOID_ACTIVE_HIGH`. -/
def bitUnlocked (s : VendingState) (i : Nat) : Prop :=
  Nat.testBit (s.shift_reg_state (i / 8)) (i % 8) = SOLENOID_ACTIVE_HIGH

instance (s : VendingState) (i : Nat) : Decidable (bitUnlocked s i) := by
  unfold bitUnlocked; infer_instance

/-! Box inventory, pricing and the vending session. -/

/-- Embedding of `HoneyVending_SetStatus`: range-check the id, update status
and last-changed timestamp, save the status slot, publish the box and an
updated summary. -/
def HoneyVending_SetStatus (s : VendingState) (box_id : Nat)
    (has_honey : Bool) (utc : Nat) : VendingState × List Event :=
  if box_id < 1 ∨ box_id > s.box_count then (s, [])
  else
    ({ s with
        box_status := updF s.box_status (box_id - 1) has_honey,
        box_last_changed := updF s.box_last_changed (box_id - 1) (u32 utc) },
     [Event.saveStatus, Event.publishBox box_id, Event.publishSummary])

/-- Embedding of `HoneyVending_SetPrice`: range-check the id, reject a price
outside 10 to 10000 cents, store the price, save the price slot, publish the
box. -/
def HoneyVending_SetPrice (s : VendingState) (box_id price_cents : Nat) :
    VendingState × List Event :=
  if box_id < 1 ∨ box_id > s.box_count then (s, [])
  else if price_cents < 10 ∨ price_cents > 10000 then (s, [])
  else
    ({ s with box_price := updF s.box_price (box_id - 1) price_cents },
     [Event.savePrices, Event.publishBox box_id])

/-- Embedding of `HoneyVending_SelectBox`: reject an out-of-range id or an
empty box; otherwise record the selection, zero the session counters and
publish the system state. -/
def HoneyVending_SelectBox (s : VendingState) (box_id : Nat) :
    VendingState × List Event :=
  if box_id < 1 ∨ box_id > s.box_count then (s, [])
  else if s.box_status (box_id - 1) = false then (s, [])
  else
    ({ s with
        selected_box_id := box_id,
        total_cents := 0,
        coins_detected := 0,
        honey_available := false },
     [Event.publishSystem])

/-- Embedding of `CmndVendingReset`: zero the session fields including the
pulse counter, clear the selection, publish the system state. -/
def CmndVendingReset (s : VendingState) : VendingState × List Event :=
  ({ s with
      total_cents := 0,
      coins_detected := 0,
      honey_available := false,
      pulse_count := 0,
      selected_box_id := 0 },
   [Event.publishSystem])

/-- Embedding of `CmndVendingSelectBox`.  The console argument is `none` when
no data was supplied and `some n` when the data parsed (leniently, via
`atoi`) to `n`.  An in-range id of an available box selects it; an in-range
id of an empty box only answers with an error; any other input falls through
to the deselect branch, which zeroes the selection and the session counters
but not the pulse counter. -/
def CmndVendingSelectBox (s : VendingState) (data : Option Nat) :
    VendingState × List Event :=
  match data with
  | some box_id =>
    if 1 ≤ box_id ∧ box_id ≤ s.box_count then
      if s.box_status (box_id - 1) = true then HoneyVending_SelectBox s box_id
      else (s, [])
    else
      ({ s with
          selected_box_id := 0,
          total_cents := 0,
          coins_detected := 0,
          honey_available := false }, [])
  | none =>
      ({ s with
          selected_box_id := 0,
          total_cents := 0,
          coins_detected := 0,
          honey_available := false }, [])

/-- Embedding of `HoneyVending_HoneyAvailable`: when a box is selected,
unlock its solenoid, publish the system state, mark the box empty via
`HoneyVending_SetStatus`, and perform the full session reset via
`CmndVendingReset`. -/
def HoneyVending_HoneyAvailable (s : VendingState) (now utc : Nat) :
    VendingState × List Event :=
  if s.selected_box_id > 0 then
    let s1 := UnlockBoxKey s s.selected_box_id now
    let r2 := HoneyVending_SetStatus s1 s1.selected_box_id false utc
    let r3 := CmndVendingReset r2.1
    (r3.1, Event.publishSystem :: r2.2 ++ r3.2)
  else (s, [])

/-- Embedding of the body of `HoneyVending_Every100ms`.  The guard sequence
mirrors the source: return unless initialized, self-throttle to one
evaluation per 100 ms, run the unlock-timeout check, then drain a completed
coin-pulse train into money (recognized coins add to the session and can
trigger the dispense path; unrecognized ones are discarded), always clearing
the pulse counter afterwards, and finally poll the button expander, storing
the raw 16-bit reading `buttons` for the next edge detection. -/
def HoneyVending_Every100ms (s : VendingState) (now utc buttons : Nat) :
    VendingState × List Event :=
  if s.initialized = false then (s, [])
  else if elapsed32 now s.last_check < 100 then (s, [])
  else
    let s := { s with last_check := u32 now }
    let s := CheckUnlockTimeout s now
    let r :=
      if s.pulse_count > 0 ∧ elapsed32 now s.last_pulse_ms ≥ COIN_TIMEOUT_MS
      then
        let coin_value := PulsesToCents s.pulse_count
        if coin_value > 0 then
          let s := { s with
              total_cents := s.total_cents + coin_value,
              last_coin_cents := coin_value,
              coins_detected := s.coins_detected + 1 }
          if s.selected_box_id > 0 ∧ s.honey_available = false then
            if s.total_cents ≥ s.box_price (s.selected_box_id - 1) then
              let s := { s with honey_available := true }
              let r2 := HoneyVending_HoneyAvailable s now utc
              ({ r2.1 with pulse_count := 0 }, Event.publishSystem :: r2.2)
            else ({ s with pulse_count := 0 }, [Event.publishSystem])
          else ({ s with pulse_count := 0 }, [Event.publishSystem])
        else ({ s with pulse_count := 0 }, [])
      else (s, [])
    let s := r.1
    let s := if s.mcp_initialized then { s with last_button_state := buttons }
             else s
    (s, r.2)

/-! Box count configuration and Home-Assistant discovery withdrawal. -/

/-- Decimal digits of a positive number, most significant first, as the
characters `snprintf` with a `%d` conversion produces them. -/
def decDigits (n : Nat) : List Char :=
  if h : n = 0 then []
  else decDigits (n / 10) ++ [Char.ofNat (48 + n % 10)]
decreasing_by exact Nat.div_lt_self (Nat.pos_of_ne_zero h) (by norm_num)

/-- Decimal rendering of a natural number, as `snprintf` with a `%d`
conversion renders a non-negative value. -/
def decRepr (n : Nat) : String :=
  if n = 0 then "0" else ⟨decDigits n⟩

/-- Evaluation of a digit string back to a number, used to prove that the
rendering is injective. -/
def decVal (l : List Char) : Nat :=
  l.foldl (fun acc c => acc * 10 + (c.toNat - 48)) 0

/-- The Home-Assistant discovery topic the driver builds for one box in
`HoneyVending_PublishDiscovery` and `HoneyVending_CleanupOldBoxes`. -/
def discoveryTopic (device_name : String) (i : Nat) : String :=
  "homeassistant/binary_sensor/" ++ device_name ++ "_box" ++ decRepr i
    ++ "/config"

/-- Embedding of `HoneyVending_CleanupOldBoxes`: when the box count shrank
and MQTT is connected, publish a retained message to the discovery topic of
every box beyond the new count.  The host's `MqttPublish` is not part of this
repository; its payload is modelled from the spec: the withdrawal publish
carries an empty config payload. -/
def HoneyVending_CleanupOldBoxes (connected : Bool) (device_name : String)
    (old_count new_count : Nat) : List MqttMsg :=
  if new_count ≥ old_count then []
  else if connected = false then []
  else
    (List.range (old_count - new_count)).map fun k =>
      { topic := discoveryTopic device_name (new_count + 1 + k),
        payload := "", retained := true }

/-- Embedding of `HoneyVending_SetBoxCount`: reject counts outside 1 to 30;
store the count; initialize any newly created boxes to empty, default price,
current timestamp; save count, status and prices; invalidate the discovery
flag; and, when MQTT is connected, withdraw discovery for removed boxes and
republish discovery and all state. -/
def HoneyVending_SetBoxCount (s : VendingState) (count utc : Nat)
    (connected : Bool) (device_name : String) : VendingState × List Event :=
  if count < 1 ∨ count > MAX_HONEY_BOX_COUNT then (s, [])
  else
    let old_count := s.box_count
    let s1 := { s with box_count := count }
    let s2 :=
      if old_count < count then
        { s1 with
            box_status := fun i =>
              if old_count ≤ i ∧ i < count then false else s1.box_status i,
            box_last_changed := fun i =>
              if old_count ≤ i ∧ i < count then u32 utc
              else s1.box_last_changed i,
            box_price := fun i =>
              if old_count ≤ i ∧ i < count then DEFAULT_PRICE_CENTS
              else s1.box_price i }
      else s1
    let s3 := { s2 with discovery_sent := false }
    let events :=
      [Event.saveBoxCount, Event.saveStatus, Event.savePrices] ++
      (if connected then
        (HoneyVending_CleanupOldBoxes connected device_name old_count
            count).map Event.mqtt ++
        [Event.publishDiscovery, Event.publishAllBoxes, Event.publishSystem]
      else [])
    (s3, events)

/-! Stepper motor coin gate. -/

/-- Wraparound of an integer into the 16-bit signed range, the effect of
assigning an out-of-range value to the driver's `int16_t` position offset. -/
def wrap16 (z : Int) : Int := (z + 2 ^ 15) % 2 ^ 16 - 2 ^ 15

/-- The motor subsystem state: the signed step offset from the home
position, a `static int16_t` in the driver. -/
structure MotorState where
  motor_position_offset : Int
deriving DecidableEq, Repr

/-- The three named coin-gate actions of `MotorAction_t`. -/
inductive MotorAction where
  | COIN_ACCEPT
  | COIN_REJECT
  | MOTOR_RESET
deriving DecidableEq, Repr

/-- One physical rotation command: a step count and a direction, `clockwise`
meaning to the right. -/
structure RotateEvent where
  steps : Nat
  clockwise : Bool
deriving DecidableEq, Repr

/-- Embedding of `Motor_Rotate`: a zero-step call returns immediately with no
movement, otherwise the motor turns the given number of steps in the given
direction. -/
def Motor_Rotate (steps : Nat) (clockwise : Bool) : List RotateEvent :=
  if steps = 0 then [] else [⟨steps, clockwise⟩]

/-- Embedding of `Motor_DoAction`: accept turns 45 degrees left and lowers
the offset by 25, reject turns 45 degrees right and raises it by 25, reset
returns home by reversing the current offset (the step count passes through
a `uint16_t` cast) and zeroes the offset, doing nothing when already at
home.  Offset arithmetic wraps as `int16_t` arithmetic does. -/
def Motor_DoAction (m : MotorState) (action : MotorAction) :
    MotorState × List RotateEvent :=
  match action with
  | .COIN_ACCEPT =>
      ({ motor_position_offset :=
          wrap16 (m.motor_position_offset - (MOTOR_45DEG_STEPS : Int)) },
       Motor_Rotate MOTOR_45DEG_STEPS false)
  | .COIN_REJECT =>
      ({ motor_position_offset :=
          wrap16 (m.motor_position_offset + (MOTOR_45DEG_STEPS : Int)) },
       Motor_Rotate MOTOR_45DEG_STEPS true)
  | .MOTOR_RESET =>
      if m.motor_position_offset = 0 then (m, [])
      else
        let go_left : Bool := decide (m.motor_position_offset > 0)
        let steps_back : Nat :=
          (if m.motor_position_offset < 0 then -m.motor_position_offset
           else m.motor_position_offset).toNat % 2 ^ 16
        ({ motor_position_offset := 0 }, Motor_Rotate steps_back (!go_left))

/-- Folding a list of coin-gate actions over the motor state. -/
def applyMotorActions (m : MotorState) (ops : List MotorAction) : MotorState :=
  ops.foldl (fun st a => (Motor_DoAction st a).1) m

/-! LCD text output. -/

/-- The C string terminator. -/
def NUL : Char := Char.ofNat 0

/-- Effect of `strncpy(buf, src, n)` on a buffer modelled as a character
list: the first `n` cells receive the characters of `src`, with `NUL`
padding once `src` is exhausted; cells beyond `n` keep their contents. -/
def strncpyBuf (buf src : List Char) (n : Nat) : List Char :=
  (List.range buf.length).map fun i =>
    if i < n then src.getD i NUL else buf.getD i NUL

/-- Embedding of `LCD_WriteText`: reject writes before initialization or
outside the 2 x 16 geometry; otherwise build the 17-byte `padded` buffer
exactly as the source does (`memset` with spaces, `strncpy` of the text into
the first `16 - col` cells, explicit terminator at index `16 - col`) and
print it at the cursor.  The returned value is the hardware write: row,
column, and the characters `lcd.print` emits, which stop at the first
`NUL`. -/
def LCD_WriteText (s : VendingState) (row col : Nat) (text : List Char) :
    Option (Nat × Nat × List Char) :=
  if s.lcd_initialized = false then none
  else if row ≥ LCD_ROWS ∨ col ≥ LCD_COLS then none
  else
    let available := LCD_COLS - col
    let padded0 := List.replicate LCD_COLS ' ' ++ [NUL]
    let padded1 := strncpyBuf padded0 text available
    let padded2 := padded1.set available NUL
    some (row, col, padded2.takeWhile (fun c => c != NUL))

/-! Sequences of lock operations, for the single-unlock invariant. -/

/-- One operation on the lock subsystem: an unlock request at a given time,
or a lock request. -/
inductive LockOp where
  | unlock (box_id now : Nat)
  | lock (box_id : Nat)

/-- Application of one lock operation. -/
def applyLockOp (s : VendingState) : LockOp → VendingState
  | .unlock b now => UnlockBoxKey s b now
  | .lock b => LockBoxKey s b

/-- Application of a sequence of lock operations, first operation first. -/
def applyLockOps (s : VendingState) (ops : List LockOp) : VendingState :=
  ops.foldl applyLockOp s

/-- The lock subsystem invariant: the tracked unlocked box is within the
chain capacity and the configured box count, and a shift-register line is at
the unlock polarity exactly for that box.  `ShiftReg_Init` establishes it
and, as proved below, lock and unlock operations preserve it. -/
def LockInv (s : VendingState) : Prop :=
  s.unlocked_box_id ≤ NUM_SHIFT_REGISTERS * 8 ∧
  s.unlocked_box_id ≤ s.box_count ∧
  ∀ i, i < NUM_SHIFT_REGISTERS * 8 →
    (bitUnlocked s i ↔ s.unlocked_box_id = i + 1)

instance (s : VendingState) : Decidable (LockInv s) := by
  unfold LockInv; infer_instance

/-! Concrete states used by the witnesses. -/

/-- A concrete state resembling the driver state just after initialization
and configuration load: 15 boxes, all available at the default price, all
locks engaged (`SOLENOID_ACTIVE_HIGH` polarity, mirror all zero), no session
in progress. -/
def baseState : VendingState where
  pulse_count := 0
  last_pulse_ms := 0
  first_pulse_ms := 0
  total_cents := 0
  last_coin_cents := 0
  coins_detected := 0
  honey_available := false
  initialized := true
  box_count := 15
  selected_box_id := 0
  box_status := fun _ => true
  box_price := fun _ => DEFAULT_PRICE_CENTS
  box_last_changed := fun _ => 0
  discovery_sent := false
  shift_reg_state := fun _ => 0
  unlock_start_ms := 0
  unlocked_box_id := 0
  lcd_initialized := true
  mcp_initialized := false
  last_button_state := 0xFFFF
  last_check := 0

/-- A concrete mid-session state: box 3 selected at the default price, 400
cents already inserted, and a completed 10-pulse burst pending. -/
def w1State : VendingState :=
  { baseState with
      pulse_count := 10
      selected_box_id := 3
      total_cents := 400 }

/-- A concrete state with a pending 3-pulse burst, a count no coin maps
to. -/
def w2State : VendingState :=
  { baseState with pulse_count := 3 }

/-- A concrete state in which box 3 was unlocked at time 0. -/
def w4State : VendingState :=
  { baseState with unlocked_box_id := 3 }

/-- A concrete state in which box 5 is tracked as unlocked while the box
count has already been reduced to 3. -/
def w10State : VendingState :=
  { baseState with
      box_count := 3
      unlocked_box_id := 5 }

def lockFrame (s t : VendingState) : Prop :=
  t.pulse_count = s.pulse_count ∧ t.last_pulse_ms = s.last_pulse_ms ∧
  t.first_pulse_ms = s.first_pulse_ms ∧ t.total_cents = s.total_cents ∧
  t.last_coin_cents = s.last_coin_cents ∧
  t.coins_detected = s.coins_detected ∧
  t.honey_available = s.honey_available ∧ t.initialized = s.initialized ∧
  t.box_count = s.box_count ∧ t.selected_box_id = s.selected_box_id ∧
  t.box_status = s.box_status ∧ t.box_price = s.box_price ∧
  t.box_last_changed = s.box_last_changed ∧
  t.discovery_sent = s.discovery_sent ∧
  t.lcd_initialized = s.lcd_initialized ∧
  t.mcp_initialized = s.mcp_initialized ∧
  t.last_button_state = s.last_button_state ∧ t.last_check = s.last_check

theorem lockFrame_rfl (s : VendingState) : lockFrame s s := by
  simp [lockFrame]

theorem lockFrame_trans {s t u : VendingState} (h1 : lockFrame s t)
    (h2 : lockFrame t u) : lockFrame s u := by
  unfold lockFrame at h1 h2 ⊢
  obtain ⟨a1,a2,a3,a4,a5,a6,a7,a8,a9,a10,a11,a12,a13,a14,a15,a16,a17,a18⟩ := h1
  obtain ⟨b1,b2,b3,b4,b5,b6,b7,b8,b9,b10,b11,b12,b13,b14,b15,b16,b17,b18⟩ := h2
  simp_all

theorem ShiftReg_SetBit_proj (s : VendingState) (p : Nat) (b : Bool) :
    ShiftReg_SetBit s p b = { s with
      shift_reg_state := (ShiftReg_SetBit s p b).shift_reg_state } := by
  unfold ShiftReg_SetBit
  split <;> rfl

theorem ShiftReg_SetBit_frame (s : VendingState) (p : Nat) (b : Bool) :
    lockFrame s (ShiftReg_SetBit s p b) := by
  rw [ShiftReg_SetBit_proj]
  simp [lockFrame]

theorem LockBoxKey_frame (s : VendingState) (b : Nat) :
    lockFrame s (LockBoxKey s b) := by
  unfold LockBoxKey
  dsimp only
  split
  · exact lockFrame_rfl s
  · split
    · have h3 := ShiftReg_SetBit_frame s (b - 1) (!SOLENOID_ACTIVE_HIGH)
      unfold lockFrame at h3 ⊢
      simp_all
    · exact ShiftReg_SetBit_frame s (b - 1) (!SOLENOID_ACTIVE_HIGH)

theorem UnlockBoxKey_frame (s : VendingState) (b now : Nat) :
    lockFrame s (UnlockBoxKey s b now) := by
  unfold UnlockBoxKey
  dsimp only
  split
  · exact lockFrame_rfl s
  · split
    · exact lockFrame_rfl s
    · by_cases ht : s.unlocked_box_id > 0
      · simp only [if_pos ht]
        have h1 := LockBoxKey_frame s s.unlocked_box_id
        have h2 := ShiftReg_SetBit_frame (LockBoxKey s s.unlocked_box_id)
          (b - 1) SOLENOID_ACTIVE_HIGH
        have h3 := lockFrame_trans h1 h2
        unfold lockFrame at h3 ⊢
        simp_all
      · simp only [if_neg ht]
        have h3 := ShiftReg_SetBit_frame s (b - 1) SOLENOID_ACTIVE_HIGH
        unfold lockFrame at h3 ⊢
        simp_all

theorem CheckUnlockTimeout_frame (s : VendingState) (now : Nat) :
    lockFrame s (CheckUnlockTimeout s now) := by
  unfold CheckUnlockTimeout
  split_ifs
  · exact LockBoxKey_frame s s.unlocked_box_id
  · exact lockFrame_rfl s
  · exact lockFrame_rfl s

theorem ShiftReg_SetBit_unlocked (s : VendingState) (p : Nat) (b : Bool) :
    (ShiftReg_SetBit s p b).unlocked_box_id = s.unlocked_box_id := by
  rw [ShiftReg_SetBit_proj]

theorem ShiftReg_SetBit_shift_high (s : VendingState) (p : Nat) (b : Bool)
    (hp : p ≥ NUM_SHIFT_REGISTERS * 8) : ShiftReg_SetBit s p b = s := by
  unfold ShiftReg_SetBit
  rw [if_pos hp]

theorem ShiftReg_SetBit_bit_self (s : VendingState) (p : Nat) (hp : p < 32)
    (b : Bool) :
    Nat.testBit ((ShiftReg_SetBit s p b).shift_reg_state (p / 8)) (p % 8)
      = b := by
  have hk : p % 8 < 32 := by omega
  have hmask : (0xFFFFFFFF : Nat) = 2 ^ 32 - 1 := by norm_num
  unfold ShiftReg_SetBit updF
  rw [if_neg (by simp only [NUM_SHIFT_REGISTERS]; omega)]
  simp only [if_pos rfl, if_true]
  cases b with
  | true =>
      rw [if_pos rfl, Nat.one_shiftLeft, Nat.testBit_or,
        Nat.testBit_two_pow_self, Bool.or_true]
  | false =>
      rw [if_neg (by simp), Nat.one_shiftLeft, Nat.testBit_and,
        Nat.testBit_xor, hmask, Nat.testBit_two_pow_sub_one,
        Nat.testBit_two_pow_self]
      simp [hk]

theorem ShiftReg_SetBit_bit_other (s : VendingState) (p i : Nat)
    (hp : p < 32) (hne : i ≠ p) (b : Bool) :
    Nat.testBit ((ShiftReg_SetBit s p b).shift_reg_state (i / 8)) (i % 8)
      = Nat.testBit (s.shift_reg_state (i / 8)) (i % 8) := by
  unfold ShiftReg_SetBit updF
  rw [if_neg (by simp only [NUM_SHIFT_REGISTERS]; omega)]
  by_cases hreg : i / 8 = p / 8
  · have hbit : i % 8 ≠ p % 8 := by omega
    have hj : i % 8 < 32 := by omega
    have hmask : (0xFFFFFFFF : Nat) = 2 ^ 32 - 1 := by norm_num
    simp only [if_pos hreg, hreg, if_true]
    cases b with
    | true =>
        rw [if_pos rfl, Nat.one_shiftLeft, Nat.testBit_or,
          Nat.testBit_two_pow_of_ne (Ne.symm hbit), Bool.or_false]
    | false =>
        rw [if_neg (by simp), Nat.one_shiftLeft, Nat.testBit_and,
          Nat.testBit_xor, hmask, Nat.testBit_two_pow_sub_one,
          Nat.testBit_two_pow_of_ne (Ne.symm hbit)]
        simp [hj]
  · simp only [if_neg hreg]

theorem elapsed32_exact (T now : Nat) (h1 : T ≤ now)
    (h2 : now - T < 2 ^ 32) : elapsed32 now (u32 T) = now - T := by
  have hp : (2 : Nat) ^ 32 = 4294967296 := by norm_num
  simp only [elapsed32, u32, hp] at h2 ⊢
  omega

theorem lockFrame_box_count {s t : VendingState} (h : lockFrame s t) :
    t.box_count = s.box_count := h.2.2.2.2.2.2.2.2.1

theorem LockBoxKey_id_invalid (s : VendingState) (b : Nat)
    (h : b < 1 ∨ b > s.box_count) : LockBoxKey s b = s := by
  unfold LockBoxKey
  rw [if_pos h]

theorem LockBoxKey_valid_fields (s : VendingState) (b : Nat)
    (hv : ¬(b < 1 ∨ b > s.box_count)) :
    ((LockBoxKey s b).unlocked_box_id
        = if s.unlocked_box_id = b then 0 else s.unlocked_box_id) ∧
    (LockBoxKey s b).shift_reg_state
        = (ShiftReg_SetBit s (b - 1) (!SOLENOID_ACTIVE_HIGH)).shift_reg_state
    := by
  unfold LockBoxKey
  dsimp only
  rw [if_neg hv]
  simp only [ShiftReg_SetBit_unlocked]
  split_ifs with h
  · exact ⟨rfl, rfl⟩
  · exact ⟨ShiftReg_SetBit_unlocked s (b - 1) (!SOLENOID_ACTIVE_HIGH), rfl⟩

theorem LockInv_LockBoxKey (s : VendingState) (b : Nat) (h : LockInv s) :
    LockInv (LockBoxKey s b) := by
  obtain ⟨hcap, hcnt, hbits⟩ := h
  by_cases hv : b < 1 ∨ b > s.box_count
  · rw [LockBoxKey_id_invalid s b hv]
    exact ⟨hcap, hcnt, hbits⟩
  · obtain ⟨hu, hs⟩ := LockBoxKey_valid_fields s b hv
    have hbc := lockFrame_box_count (LockBoxKey_frame s b)
    have hb1 : 1 ≤ b := by omega
    refine ⟨?_, ?_, ?_⟩
    · rw [hu]; split_ifs
      · omega
      · exact hcap
    · rw [hu, hbc]; split_ifs
      · omega
      · exact hcnt
    · intro i hi
      simp only [NUM_SHIFT_REGISTERS] at hi
      have hiff := hbits i (by simp only [NUM_SHIFT_REGISTERS]; omega)
      unfold bitUnlocked at hiff
      unfold bitUnlocked
      rw [hs, hu]
      by_cases hb32 : 32 ≤ b - 1
      · have hge : b - 1 ≥ NUM_SHIFT_REGISTERS * 8 := by
          show 4 * 8 ≤ b - 1
          omega
        rw [ShiftReg_SetBit_shift_high s (b - 1)
          (!SOLENOID_ACTIVE_HIGH) hge, hiff]
        by_cases ht : s.unlocked_box_id = b
        · rw [if_pos ht]
          omega
        · rw [if_neg ht]
      · push_neg at hb32
        by_cases hib : i = b - 1
        · subst hib
          rw [ShiftReg_SetBit_bit_self s (b - 1) hb32]
          simp only [SOLENOID_ACTIVE_HIGH, Bool.not_true]
          constructor
          · intro hff; exact absurd hff (by simp)
          · intro hcontra
            by_cases ht : s.unlocked_box_id = b
            · rw [if_pos ht] at hcontra; omega
            · rw [if_neg ht] at hcontra; omega
        · rw [ShiftReg_SetBit_bit_other s (b - 1) i hb32 hib, hiff]
          by_cases ht : s.unlocked_box_id = b
          · rw [if_pos ht]
            omega
          · rw [if_neg ht]

theorem LockInv_UnlockBoxKey (s : VendingState) (b now : Nat)
    (h : LockInv s) : LockInv (UnlockBoxKey s b now) := by
  obtain ⟨hcap, hcnt, hbits⟩ := h
  unfold UnlockBoxKey
  dsimp only
  by_cases hv : b < 1 ∨ b > s.box_count
  · rw [if_pos hv]; exact ⟨hcap, hcnt, hbits⟩
  rw [if_neg hv]
  by_cases hc : b > NUM_SHIFT_REGISTERS * 8
  · rw [if_pos hc]; exact ⟨hcap, hcnt, hbits⟩
  rw [if_neg hc]
  simp only [NUM_SHIFT_REGISTERS] at hc
  have hb1 : 1 ≤ b := by omega
  set s1 := if s.unlocked_box_id > 0 then LockBoxKey s s.unlocked_box_id
    else s with hs1
  have hnone : ∀ i, i < 32 → ¬ bitUnlocked s1 i := by
    intro i hi
    by_cases ht : s.unlocked_box_id > 0
    · rw [hs1, if_pos ht]
      have hvt : ¬(s.unlocked_box_id < 1 ∨
          s.unlocked_box_id > s.box_count) := by omega
      obtain ⟨hu, hs⟩ := LockBoxKey_valid_fields s s.unlocked_box_id hvt
      unfold bitUnlocked
      rw [hs]
      by_cases hib : i = s.unlocked_box_id - 1
      · subst hib
        rw [ShiftReg_SetBit_bit_self s _
          (by simp only [NUM_SHIFT_REGISTERS] at hcap; omega)]
        simp [SOLENOID_ACTIVE_HIGH]
      · rw [ShiftReg_SetBit_bit_other s _ i
          (by simp only [NUM_SHIFT_REGISTERS] at hcap; omega) hib]
        have hiff := hbits i (by simp only [NUM_SHIFT_REGISTERS]; omega)
        unfold bitUnlocked at hiff
        rw [hiff]
        omega
    · rw [hs1, if_neg ht]
      have hiff := hbits i (by simp only [NUM_SHIFT_REGISTERS]; omega)
      rw [hiff]
      omega
  have hbc1 : s1.box_count = s.box_count := by
    rw [hs1]
    split_ifs
    · exact lockFrame_box_count (LockBoxKey_frame s s.unlocked_box_id)
    · rfl
  have hbc2 := lockFrame_box_count
    (ShiftReg_SetBit_frame s1 (b - 1) SOLENOID_ACTIVE_HIGH)
  refine ⟨by simp only [NUM_SHIFT_REGISTERS]; omega, ?_, ?_⟩
  · show b ≤ _
    rw [show ({ ShiftReg_SetBit s1 (b - 1) SOLENOID_ACTIVE_HIGH with
        unlocked_box_id := b, unlock_start_ms := u32 now }
          : VendingState).box_count
      = (ShiftReg_SetBit s1 (b - 1) SOLENOID_ACTIVE_HIGH).box_count from rfl,
      hbc2, hbc1]
    omega
  · intro i hi
    simp only [NUM_SHIFT_REGISTERS] at hi
    unfold bitUnlocked
    show Nat.testBit ((ShiftReg_SetBit s1 (b - 1)
      SOLENOID_ACTIVE_HIGH).shift_reg_state (i / 8)) (i % 8)
        = SOLENOID_ACTIVE_HIGH ↔ b = i + 1
    by_cases hib : i = b - 1
    · subst hib
      rw [ShiftReg_SetBit_bit_self s1 (b - 1) (by omega)]
      constructor
      · intro _; omega
      · intro _; rfl
    · rw [ShiftReg_SetBit_bit_other s1 (b - 1) i (by omega) hib]
      have hn := hnone i (by omega)
      unfold bitUnlocked at hn
      constructor
      · intro hcontra; exact absurd hcontra hn
      · intro hcontra; omega

theorem applyLockOps_cons (s : VendingState) (op : LockOp)
    (ops : List LockOp) :
    applyLockOps s (op :: ops) = applyLockOps (applyLockOp s op) ops := rfl

theorem LockInv_applyLockOps (s : VendingState) (ops : List LockOp)
    (h : LockInv s) : LockInv (applyLockOps s ops) := by
  induction ops generalizing s with
  | nil => exact h
  | cons op rest ih =>
      rw [applyLockOps_cons]
      refine ih _ ?_
      cases op with
      | unlock b now => exact LockInv_UnlockBoxKey s b now h
      | lock b => exact LockInv_LockBoxKey s b h

theorem lockFrame_pulse_count {s t : VendingState} (h : lockFrame s t) :
    t.pulse_count = s.pulse_count := h.1

theorem lockFrame_last_pulse_ms {s t : VendingState} (h : lockFrame s t) :
    t.last_pulse_ms = s.last_pulse_ms := h.2.1

theorem lockFrame_total_cents {s t : VendingState} (h : lockFrame s t) :
    t.total_cents = s.total_cents := h.2.2.2.1

theorem lockFrame_coins_detected {s t : VendingState} (h : lockFrame s t) :
    t.coins_detected = s.coins_detected := h.2.2.2.2.2.1

theorem lockFrame_honey_available {s t : VendingState} (h : lockFrame s t) :
    t.honey_available = s.honey_available := h.2.2.2.2.2.2.1

theorem lockFrame_selected {s t : VendingState} (h : lockFrame s t) :
    t.selected_box_id = s.selected_box_id := h.2.2.2.2.2.2.2.2.2.1

theorem lockFrame_box_status {s t : VendingState} (h : lockFrame s t) :
    t.box_status = s.box_status := h.2.2.2.2.2.2.2.2.2.2.1

theorem lockFrame_box_price {s t : VendingState} (h : lockFrame s t) :
    t.box_price = s.box_price := h.2.2.2.2.2.2.2.2.2.2.2.1

theorem lockFrame_mcp {s t : VendingState} (h : lockFrame s t) :
    t.mcp_initialized = s.mcp_initialized :=
  h.2.2.2.2.2.2.2.2.2.2.2.2.2.2.2.1

theorem ShiftReg_SetBit_start (s : VendingState) (p : Nat) (b : Bool) :
    (ShiftReg_SetBit s p b).unlock_start_ms = s.unlock_start_ms := by
  rw [ShiftReg_SetBit_proj]

theorem LockBoxKey_start (s : VendingState) (b : Nat)
    (hv : ¬(b < 1 ∨ b > s.box_count)) :
    (LockBoxKey s b).unlock_start_ms
      = if s.unlocked_box_id = b then 0 else s.unlock_start_ms := by
  unfold LockBoxKey
  dsimp only
  rw [if_neg hv]
  simp only [ShiftReg_SetBit_unlocked]
  split_ifs with h
  · rfl
  · exact ShiftReg_SetBit_start s (b - 1) (!SOLENOID_ACTIVE_HIGH)

theorem UnlockBoxKey_valid_effects (s : VendingState) (b now : Nat)
    (h1 : 1 ≤ b) (h2 : b ≤ s.box_count)
    (h3 : b ≤ NUM_SHIFT_REGISTERS * 8) :
    (UnlockBoxKey s b now).unlocked_box_id = b ∧
    (UnlockBoxKey s b now).unlock_start_ms = u32 now ∧
    bitUnlocked (UnlockBoxKey s b now) (b - 1) := by
  unfold UnlockBoxKey
  dsimp only
  rw [if_neg (by omega), if_neg (not_lt.mpr h3)]
  refine ⟨rfl, rfl, ?_⟩
  unfold bitUnlocked
  exact ShiftReg_SetBit_bit_self _ (b - 1)
    (by simp only [NUM_SHIFT_REGISTERS] at h3; omega) _

/-- C3: for every sequence of unlock and lock operations from a state
satisfying the lock invariant, at most one shift-register line is ever at
the unlock polarity, and unlocking a new box leaves exactly that box's line
unlocked: the previously unlocked box's line is back at the locked
polarity. -/
theorem at_most_one_box_unlocked (s : VendingState) (hinv : LockInv s) :
    (∀ ops : List LockOp, ∀ i j,
        i < NUM_SHIFT_REGISTERS * 8 → j < NUM_SHIFT_REGISTERS * 8 →
        bitUnlocked (applyLockOps s ops) i →
        bitUnlocked (applyLockOps s ops) j → i = j) ∧
    (∀ ops : List LockOp, ∀ b now, 1 ≤ b →
        b ≤ (applyLockOps s ops).box_count →
        b ≤ NUM_SHIFT_REGISTERS * 8 →
        (UnlockBoxKey (applyLockOps s ops) b now).unlocked_box_id = b ∧
        bitUnlocked (UnlockBoxKey (applyLockOps s ops) b now) (b - 1) ∧
        (∀ i, i < NUM_SHIFT_REGISTERS * 8 → i ≠ b - 1 →
          ¬ bitUnlocked (UnlockBoxKey (applyLockOps s ops) b now) i)) := by
  constructor
  · intro ops i j hi hj hbi hbj
    obtain ⟨-, -, hbits⟩ := LockInv_applyLockOps s ops hinv
    have h1 := (hbits i hi).mp hbi
    have h2 := (hbits j hj).mp hbj
    omega
  · intro ops b now hb1 hb2 hb3
    have hindual := LockInv_applyLockOps s ops hinv
    obtain ⟨he1, he2, he3⟩ :=
      UnlockBoxKey_valid_effects (applyLockOps s ops) b now hb1 hb2 hb3
    refine ⟨he1, he3, ?_⟩
    intro i hi hine
    obtain ⟨-, -, hbits⟩ :=
      LockInv_UnlockBoxKey (applyLockOps s ops) b now hindual
    intro hbit
    have := (hbits i hi).mp hbit
    rw [he1] at this
    omega

/-- C4: a box unlocked with a valid id at time T stays unlocked at every
100 ms timeout evaluation strictly before T plus 60,000 ms, and the first
evaluation at or after T plus 60,000 ms re-locks it: the tracking fields are
cleared and its shift-register line returns to the locked polarity. -/
theorem unlock_timeout_relocks_at_60s (s : VendingState) (b T now : Nat)
    (hb : s.unlocked_box_id = b)
    (h1 : 1 ≤ b) (h2 : b ≤ s.box_count)
    (h3 : b ≤ NUM_SHIFT_REGISTERS * 8)
    (hT : s.unlock_start_ms = u32 T)
    (hmono : T ≤ now) (hwin : now - T < 2 ^ 32) :
    (now < T + UNLOCK_DURATION_MS → CheckUnlockTimeout s now = s) ∧
    (T + UNLOCK_DURATION_MS ≤ now →
      (CheckUnlockTimeout s now).unlocked_box_id = 0 ∧
      (CheckUnlockTimeout s now).unlock_start_ms = 0 ∧
      ¬ bitUnlocked (CheckUnlockTimeout s now) (b - 1)) := by
  have helapsed : elapsed32 now s.unlock_start_ms = now - T := by
    rw [hT]; exact elapsed32_exact T now hmono hwin
  have hvalid : ¬(b < 1 ∨ b > s.box_count) := by omega
  constructor
  · intro hearly
    unfold CheckUnlockTimeout
    rw [if_pos (show s.unlocked_box_id > 0 by omega)]
    split_ifs with hto
    · exfalso
      rw [helapsed] at hto
      simp only [UNLOCK_DURATION_MS] at hto hearly
      omega
    · rfl
  · intro hlate
    unfold CheckUnlockTimeout
    rw [if_pos (show s.unlocked_box_id > 0 by omega)]
    split_ifs with hto
    · rw [hb]
      obtain ⟨hu, hs⟩ := LockBoxKey_valid_fields s b hvalid
      have hst := LockBoxKey_start s b hvalid
      rw [hb] at hu hst
      refine ⟨by rw [hu, if_pos rfl], by rw [hst, if_pos rfl], ?_⟩
      unfold bitUnlocked
      rw [hs, ShiftReg_SetBit_bit_self s (b - 1)
        (by simp only [NUM_SHIFT_REGISTERS] at h3; omega)]
      simp [SOLENOID_ACTIVE_HIGH]
    · exfalso
      rw [helapsed] at hto
      simp only [UNLOCK_DURATION_MS] at hto hlate
      omega

/-- C10: once the tracked unlocked box's id exceeds the configured box count
(a state reachable by decreasing the box count while that box is unlocked,
since the box-count change leaves the lock subsystem untouched), the timeout
check has no effect at any time: the range check in `LockBoxKey` returns
without touching the shift-register mirror or the tracking fields, so the
box is never automatically re-locked. -/
theorem stale_unlocked_box_never_relocked :
    (∀ (s : VendingState) (now : Nat), s.box_count < s.unlocked_box_id →
       CheckUnlockTimeout s now = s) ∧
    (∀ (s : VendingState) (count utc : Nat) (connected : Bool)
       (dn : String), 1 ≤ count → count ≤ MAX_HONEY_BOX_COUNT →
       (HoneyVending_SetBoxCount s count utc connected dn).1.unlocked_box_id
          = s.unlocked_box_id ∧
       (HoneyVending_SetBoxCount s count utc connected
          dn).1.unlock_start_ms = s.unlock_start_ms ∧
       (HoneyVending_SetBoxCount s count utc connected
          dn).1.shift_reg_state = s.shift_reg_state ∧
       (HoneyVending_SetBoxCount s count utc connected dn).1.box_count
          = count) := by
  constructor
  · intro s now hgt
    unfold CheckUnlockTimeout
    rw [if_pos (by omega)]
    split_ifs with hto
    · exact LockBoxKey_id_invalid s s.unlocked_box_id (Or.inr hgt)
    · rfl
  · intro s count utc connected dn hc1 hc2
    unfold HoneyVending_SetBoxCount
    rw [if_neg (by simp only [MAX_HONEY_BOX_COUNT] at hc2 ⊢; omega)]
    dsimp only
    split_ifs <;> exact ⟨rfl, rfl, rfl, rfl⟩

/-- C2: the pulse decoder maps pulse counts 1, 2, 5, 10 and 20 to exactly
10, 20, 50, 100 and 200 cents, yields 0 for every other count in the range 0
to 100, and a tick that drains such an unrecognized burst discards the coin:
the session total and the coin counter are unchanged and the pulse counter
is reset. -/
theorem PulsesToCents_exact_and_unknown_discarded :
    (PulsesToCents 1 = 10 ∧ PulsesToCents 2 = 20 ∧ PulsesToCents 5 = 50 ∧
     PulsesToCents 10 = 100 ∧ PulsesToCents 20 = 200) ∧
    (∀ p, p ≤ 100 → p ≠ 1 → p ≠ 2 → p ≠ 5 → p ≠ 10 → p ≠ 20 →
      PulsesToCents p = 0) ∧
    (∀ (s : VendingState) (now utc buttons : Nat),
      s.initialized = true →
      100 ≤ elapsed32 now s.last_check →
      s.pulse_count > 0 →
      COIN_TIMEOUT_MS ≤ elapsed32 now s.last_pulse_ms →
      PulsesToCents s.pulse_count = 0 →
      (HoneyVending_Every100ms s now utc buttons).1.total_cents
          = s.total_cents ∧
      (HoneyVending_Every100ms s now utc buttons).1.coins_detected
          = s.coins_detected ∧
      (HoneyVending_Every100ms s now utc buttons).1.pulse_count = 0 ∧
      (HoneyVending_Every100ms s now utc buttons).2 = []) := by
  refine ⟨⟨rfl, rfl, rfl, rfl, rfl⟩, ?_, ?_⟩
  · intro p hp h1 h2 h5 h10 h20
    unfold PulsesToCents
    rw [if_neg h1, if_neg h2, if_neg h5, if_neg h10, if_neg h20]
  · intro s now utc buttons hinit hth hpc hdone hzero
    unfold HoneyVending_Every100ms
    rw [if_neg (show ¬ s.initialized = false by simp [hinit])]
    rw [if_neg (not_lt.mpr hth)]
    dsimp only
    have hf := CheckUnlockTimeout_frame { s with last_check := u32 now } now
    set s2 := CheckUnlockTimeout { s with last_check := u32 now } now
      with hs2
    have hfp : s2.pulse_count = s.pulse_count :=
      Eq.trans (lockFrame_pulse_count hf) rfl
    have hfl : s2.last_pulse_ms = s.last_pulse_ms :=
      Eq.trans (lockFrame_last_pulse_ms hf) rfl
    have hcond : s2.pulse_count > 0 ∧
        elapsed32 now s2.last_pulse_ms ≥ COIN_TIMEOUT_MS :=
      ⟨by rw [hfp]; exact hpc, by rw [hfl]; exact hdone⟩
    rw [if_pos hcond]
    have hcv : PulsesToCents s2.pulse_count = 0 := by
      rw [hfp]; exact hzero
    rw [hcv, if_neg (show ¬ (0 : Nat) > 0 by omega)]
    have hft : s2.total_cents = s.total_cents :=
      Eq.trans (lockFrame_total_cents hf) rfl
    have hfc : s2.coins_detected = s.coins_detected :=
      Eq.trans (lockFrame_coins_detected hf) rfl
    split_ifs <;> exact ⟨hft, hfc, rfl, rfl⟩

theorem HoneyAvailable_spec (t : VendingState) (now utc : Nat)
    (h1 : 1 ≤ t.selected_box_id) (h2 : t.selected_box_id ≤ t.box_count)
    (h3 : t.box_count ≤ NUM_SHIFT_REGISTERS * 8) :
    (HoneyVending_HoneyAvailable t now utc).1.selected_box_id = 0 ∧
    (HoneyVending_HoneyAvailable t now utc).1.total_cents = 0 ∧
    (HoneyVending_HoneyAvailable t now utc).1.coins_detected = 0 ∧
    (HoneyVending_HoneyAvailable t now utc).1.honey_available = false ∧
    (HoneyVending_HoneyAvailable t now utc).1.pulse_count = 0 ∧
    (HoneyVending_HoneyAvailable t now utc).1.box_status
        (t.selected_box_id - 1) = false ∧
    (HoneyVending_HoneyAvailable t now utc).1.unlocked_box_id
        = t.selected_box_id ∧
    bitUnlocked (HoneyVending_HoneyAvailable t now utc).1
        (t.selected_box_id - 1) ∧
    Event.publishSystem ∈ (HoneyVending_HoneyAvailable t now utc).2 ∧
    Event.saveStatus ∈ (HoneyVending_HoneyAvailable t now utc).2 ∧
    Event.publishBox t.selected_box_id
        ∈ (HoneyVending_HoneyAvailable t now utc).2 := by
  have hb2 : t.selected_box_id ≤ NUM_SHIFT_REGISTERS * 8 := le_trans h2 h3
  obtain ⟨hu1, hu2, hu3⟩ :=
    UnlockBoxKey_valid_effects t t.selected_box_id now h1 h2 hb2
  have huf := UnlockBoxKey_frame t t.selected_box_id now
  have husel : (UnlockBoxKey t t.selected_box_id now).selected_box_id
      = t.selected_box_id := lockFrame_selected huf
  have hubc : (UnlockBoxKey t t.selected_box_id now).box_count
      = t.box_count := lockFrame_box_count huf
  unfold HoneyVending_HoneyAvailable
  rw [if_pos (show t.selected_box_id > 0 by omega)]
  dsimp only
  rw [husel]
  unfold HoneyVending_SetStatus
  rw [if_neg (show ¬(t.selected_box_id < 1 ∨ t.selected_box_id >
      (UnlockBoxKey t t.selected_box_id now).box_count) by
    rw [hubc]; omega)]
  dsimp only
  unfold CmndVendingReset
  dsimp only
  refine ⟨rfl, rfl, rfl, rfl, rfl, ?_, hu1, hu3, ?_, ?_, ?_⟩
  · show updF (UnlockBoxKey t t.selected_box_id now).box_status
      (t.selected_box_id - 1) false (t.selected_box_id - 1) = false
    simp [updF]
  · simp
  · simp
  · simp

/-- C1: when a box is selected (id within the box count and chain capacity)
and a completed recognized coin burst brings the session total to at least
the box's price, the same 100 ms tick evaluation unlocks that box's
solenoid, publishes system state, marks the box empty with a persisted and
published status change, and fully resets the session to its Idle defaults
before the tick returns: no Complete state survives the tick. -/
theorem session_complete_resets_within_tick
    (s : VendingState) (now utc buttons : Nat)
    (hinit : s.initialized = true)
    (hth : 100 ≤ elapsed32 now s.last_check)
    (hpc : s.pulse_count > 0)
    (hdone : COIN_TIMEOUT_MS ≤ elapsed32 now s.last_pulse_ms)
    (hcoin : PulsesToCents s.pulse_count > 0)
    (hsel1 : 1 ≤ s.selected_box_id)
    (hsel2 : s.selected_box_id ≤ s.box_count)
    (hcap : s.box_count ≤ NUM_SHIFT_REGISTERS * 8)
    (hcollect : s.honey_available = false)
    (htarget : s.box_price (s.selected_box_id - 1) ≤
      s.total_cents + PulsesToCents s.pulse_count) :
    ((HoneyVending_Every100ms s now utc buttons).1.selected_box_id = 0 ∧
     (HoneyVending_Every100ms s now utc buttons).1.total_cents = 0 ∧
     (HoneyVending_Every100ms s now utc buttons).1.coins_detected = 0 ∧
     (HoneyVending_Every100ms s now utc buttons).1.honey_available = false ∧
     (HoneyVending_Every100ms s now utc buttons).1.pulse_count = 0) ∧
    (HoneyVending_Every100ms s now utc buttons).1.box_status
        (s.selected_box_id - 1) = false ∧
    (HoneyVending_Every100ms s now utc buttons).1.unlocked_box_id
        = s.selected_box_id ∧
    bitUnlocked (HoneyVending_Every100ms s now utc buttons).1
        (s.selected_box_id - 1) ∧
    Event.publishSystem ∈ (HoneyVending_Every100ms s now utc buttons).2 ∧
    Event.saveStatus ∈ (HoneyVending_Every100ms s now utc buttons).2 ∧
    Event.publishBox s.selected_box_id
        ∈ (HoneyVending_Every100ms s now utc buttons).2 := by
  unfold HoneyVending_Every100ms
  rw [if_neg (show ¬ s.initialized = false by simp [hinit])]
  rw [if_neg (not_lt.mpr hth)]
  dsimp only
  have hf := CheckUnlockTimeout_frame { s with last_check := u32 now } now
  set s2 := CheckUnlockTimeout { s with last_check := u32 now } now with hs2
  have hfp : s2.pulse_count = s.pulse_count :=
    Eq.trans (lockFrame_pulse_count hf) rfl
  have hfl : s2.last_pulse_ms = s.last_pulse_ms :=
    Eq.trans (lockFrame_last_pulse_ms hf) rfl
  have hfsel : s2.selected_box_id = s.selected_box_id :=
    Eq.trans (lockFrame_selected hf) rfl
  have hfhon : s2.honey_available = s.honey_available :=
    Eq.trans (lockFrame_honey_available hf) rfl
  have hftot : s2.total_cents = s.total_cents :=
    Eq.trans (lockFrame_total_cents hf) rfl
  have hfbc : s2.box_count = s.box_count :=
    Eq.trans (lockFrame_box_count hf) rfl
  have hfbp : s2.box_price = s.box_price :=
    Eq.trans (lockFrame_box_price hf) rfl
  rw [if_pos (show s2.pulse_count > 0 ∧
      elapsed32 now s2.last_pulse_ms ≥ COIN_TIMEOUT_MS from
    ⟨by rw [hfp]; exact hpc, by rw [hfl]; exact hdone⟩)]
  rw [if_pos (show PulsesToCents s2.pulse_count > 0 by
    rw [hfp]; exact hcoin)]
  rw [if_pos (show s2.selected_box_id > 0 ∧ s2.honey_available = false from
    ⟨by rw [hfsel]; omega, by rw [hfhon]; exact hcollect⟩)]
  rw [if_pos (show s2.total_cents + PulsesToCents s2.pulse_count ≥
      s2.box_price (s2.selected_box_id - 1) by
    rw [hftot, hfp, hfbp, hfsel]; exact htarget)]
  have hspec := HoneyAvailable_spec
    { s2 with
        total_cents := s2.total_cents + PulsesToCents s2.pulse_count,
        last_coin_cents := PulsesToCents s2.pulse_count,
        coins_detected := s2.coins_detected + 1,
        honey_available := true } now utc
    (by show 1 ≤ s2.selected_box_id; rw [hfsel]; omega)
    (by show s2.selected_box_id ≤ s2.box_count; rw [hfsel, hfbc]; omega)
    (by show s2.box_count ≤ NUM_SHIFT_REGISTERS * 8; rw [hfbc]; exact hcap)
  dsimp only at hspec
  obtain ⟨p1, p2, p3, p4, p5, p6, p7, p8, p9, p10, p11⟩ := hspec
  rw [← hfsel]
  dsimp only
  refine ⟨⟨?_, ?_, ?_, ?_, ?_⟩, ?_, ?_, ?_, ?_, ?_, ?_⟩
  · split_ifs <;> exact p1
  · split_ifs <;> exact p2
  · split_ifs <;> exact p3
  · split_ifs <;> exact p4
  · split_ifs <;> rfl
  · split_ifs <;> exact p6
  · split_ifs <;> exact p7
  · split_ifs <;> exact p8
  · exact List.mem_cons_self _ _
  · exact List.mem_cons_of_mem _ p10
  · exact List.mem_cons_of_mem _ p11

theorem decVal_append_singleton (l : List Char) (c : Char) :
    decVal (l ++ [c]) = decVal l * 10 + (c.toNat - 48) := by
  simp [decVal, List.foldl_append]

theorem char_ofNat_digit_toNat (d : Nat) (hd : d < 10) :
    (Char.ofNat (48 + d)).toNat = 48 + d := by
  interval_cases d <;> decide

theorem decVal_decDigits (n : Nat) : decVal (decDigits n) = n := by
  induction n using Nat.strong_induction_on with
  | _ n ih =>
    unfold decDigits
    split_ifs with h
    · subst h; simp [decVal]
    · rw [decVal_append_singleton,
        ih (n / 10) (Nat.div_lt_self (Nat.pos_of_ne_zero h) (by norm_num)),
        char_ofNat_digit_toNat (n % 10) (Nat.mod_lt _ (by norm_num))]
      omega

theorem decDigits_inj {m n : Nat} (h : decDigits m = decDigits n) :
    m = n := by
  have h2 := congrArg decVal h
  rwa [decVal_decDigits, decVal_decDigits] at h2

theorem decRepr_data_inj {m n : Nat}
    (h : (decRepr m).data = (decRepr n).data) : m = n := by
  unfold decRepr at h
  split_ifs at h with h1 h2 h2
  · omega
  · exfalso
    have hd : decDigits n = [Char.ofNat 48] := h.symm
    have := congrArg decVal hd
    rw [decVal_decDigits] at this
    simp [decVal] at this
    exact h2 this
  · exfalso
    have hd : decDigits m = [Char.ofNat 48] := h
    have := congrArg decVal hd
    rw [decVal_decDigits] at this
    simp [decVal] at this
    exact h1 this
  · exact decDigits_inj h

theorem decRepr_inj {m n : Nat} (h : decRepr m = decRepr n) : m = n :=
  decRepr_data_inj (congrArg String.data h)

theorem discoveryTopic_inj (dn : String) {i j : Nat}
    (h : discoveryTopic dn i = discoveryTopic dn j) : i = j := by
  unfold discoveryTopic at h
  have h2 := congrArg String.data h
  simp only [String.data_append, List.append_assoc] at h2
  have h3 := List.append_cancel_left h2
  have h4 := List.append_cancel_left h3
  have h5 := List.append_cancel_left h4
  have h6 := List.append_cancel_right h5
  exact decRepr_data_inj h6

/-- C7: a box-count decrease while MQTT is connected publishes one retained
withdrawal message (empty config payload, modelled from the spec since the
host's publish primitive is outside this repository) to the discovery topic
of every box beyond the new count, publishes nothing else, and publishes to
no discovery topic of a surviving box. -/
theorem discovery_withdrawal_on_shrink (dn : String)
    (old_count new_count : Nat) (hshrink : new_count < old_count) :
    (∀ i, new_count < i → i ≤ old_count →
       (⟨discoveryTopic dn i, "", true⟩ : MqttMsg)
         ∈ HoneyVending_CleanupOldBoxes true dn old_count new_count) ∧
    (∀ msg ∈ HoneyVending_CleanupOldBoxes true dn old_count new_count,
       msg.retained = true ∧ msg.payload = "" ∧
       ∃ i, new_count < i ∧ i ≤ old_count ∧
         msg.topic = discoveryTopic dn i) ∧
    (∀ j, 1 ≤ j → j ≤ new_count →
       ∀ msg ∈ HoneyVending_CleanupOldBoxes true dn old_count new_count,
         msg.topic ≠ discoveryTopic dn j) := by
  unfold HoneyVending_CleanupOldBoxes
  rw [if_neg (not_le.mpr hshrink), if_neg (by simp)]
  refine ⟨?_, ?_, ?_⟩
  · intro i hi1 hi2
    refine List.mem_map.mpr ⟨i - (new_count + 1),
      List.mem_range.mpr (by omega), ?_⟩
    rw [show new_count + 1 + (i - (new_count + 1)) = i by omega]
  · intro msg hmsg
    rcases List.mem_map.mp hmsg with ⟨k, hk, rfl⟩
    have hk2 := List.mem_range.mp hk
    exact ⟨rfl, rfl, new_count + 1 + k, by omega, by omega, rfl⟩
  · intro j hj1 hj2 msg hmsg heq
    rcases List.mem_map.mp hmsg with ⟨k, hk, rfl⟩
    have hk2 := List.mem_range.mp hk
    have := discoveryTopic_inj dn heq
    omega

/-- C8: with an in-range box id, a price below 10 or above 10,000 cents is
rejected with no state change and no persistence or publish, while any price
within the bounds, in particular exactly 10 or exactly 10,000, is stored,
saved and published. -/
theorem set_price_bounds_enforced (s : VendingState) (box_id : Nat)
    (h1 : 1 ≤ box_id) (h2 : box_id ≤ s.box_count) :
    (∀ price, price < 10 ∨ price > 10000 →
       HoneyVending_SetPrice s box_id price = (s, [])) ∧
    (∀ price, 10 ≤ price → price ≤ 10000 →
       (HoneyVending_SetPrice s box_id price).1.box_price (box_id - 1)
           = price ∧
       (∀ j, j ≠ box_id - 1 →
         (HoneyVending_SetPrice s box_id price).1.box_price j
           = s.box_price j) ∧
       (HoneyVending_SetPrice s box_id price).2
           = [Event.savePrices, Event.publishBox box_id]) := by
  constructor
  · intro price hbad
    unfold HoneyVending_SetPrice
    rw [if_neg (by omega), if_pos hbad]
  · intro price hp1 hp2
    unfold HoneyVending_SetPrice
    rw [if_neg (by omega), if_neg (by omega)]
    refine ⟨by simp [updF], ?_, rfl⟩
    intro j hj
    simp [updF, hj]

/-- C5 counterexample: deselection via `CmndVendingSelectBox` with no
argument zeroes the selection, total, coin count and availability flag, but
leaves the pulse counter at its previous value 7 instead of zeroing it, so
the claim that deselection zeroes all five fields fails. -/
theorem deselect_leaves_pulse_counter :
    (CmndVendingSelectBox { baseState with pulse_count := 7 }
        none).1.selected_box_id = 0 ∧
    (CmndVendingSelectBox { baseState with pulse_count := 7 }
        none).1.total_cents = 0 ∧
    (CmndVendingSelectBox { baseState with pulse_count := 7 }
        none).1.coins_detected = 0 ∧
    (CmndVendingSelectBox { baseState with pulse_count := 7 }
        none).1.honey_available = false ∧
    (CmndVendingSelectBox { baseState with pulse_count := 7 }
        none).1.pulse_count = 7 ∧ (7 : Nat) ≠ 0 :=
  ⟨rfl, rfl, rfl, rfl, rfl, by decide⟩

/-- C5 amended: the explicit reset zeroes all five session fields including
the pulse counter, while deselection (no argument, or an argument outside
the box range) zeroes only the selection, total, coin count and availability
flag and leaves the pulse counter unchanged. -/
theorem reset_zeroes_five_deselect_zeroes_four :
    (∀ s : VendingState,
      (CmndVendingReset s).1.total_cents = 0 ∧
      (CmndVendingReset s).1.coins_detected = 0 ∧
      (CmndVendingReset s).1.pulse_count = 0 ∧
      (CmndVendingReset s).1.honey_available = false ∧
      (CmndVendingReset s).1.selected_box_id = 0) ∧
    (∀ (s : VendingState) (data : Option Nat),
      (data = none ∨ ∃ n, data = some n ∧ ¬(1 ≤ n ∧ n ≤ s.box_count)) →
      (CmndVendingSelectBox s data).1.total_cents = 0 ∧
      (CmndVendingSelectBox s data).1.coins_detected = 0 ∧
      (CmndVendingSelectBox s data).1.honey_available = false ∧
      (CmndVendingSelectBox s data).1.selected_box_id = 0 ∧
      (CmndVendingSelectBox s data).1.pulse_count = s.pulse_count) := by
  constructor
  · intro s
    exact ⟨rfl, rfl, rfl, rfl, rfl⟩
  · rintro s data (rfl | ⟨n, rfl, hn⟩)
    · exact ⟨rfl, rfl, rfl, rfl, rfl⟩
    · unfold CmndVendingSelectBox
      dsimp only
      rw [if_neg hn]
      exact ⟨rfl, rfl, rfl, rfl, rfl⟩

/-- C6: evaluating `LCD_WriteText` on an initialized display at row 0,
column 0 with the two-character text "Hi" emits only the two characters of
the text, not the full 16-column remainder of the row: the `strncpy` of the
source null-pads the buffer after the text, so the print stops there and the
announced space padding never reaches the display, contradicting the
function's own documentation. -/
theorem lcd_write_truncates_at_text_length :
    LCD_WriteText baseState 0 0 ['H', 'i']
      = some (0, 0, ['H', 'i']) ∧ (2 : Nat) < LCD_COLS - 0 := by
  constructor
  · decide
  · decide

theorem wrap16_eq (z : Int) (h1 : -(2 ^ 15) ≤ z) (h2 : z ≤ 2 ^ 15 - 1) :
    wrap16 z = z := by
  have hp15 : (2 : Int) ^ 15 = 32768 := by norm_num
  have hp16 : (2 : Int) ^ 16 = 65536 := by norm_num
  unfold wrap16
  rw [hp15, hp16] at *
  omega

theorem Motor_reset_offset_zero (m : MotorState) :
    (Motor_DoAction m MotorAction.MOTOR_RESET).1.motor_position_offset
      = 0 := by
  unfold Motor_DoAction
  dsimp only
  split_ifs with h
  · exact h
  all_goals rfl

/-- C9 counterexample: the position offset is a 16-bit signed value, so a
coin accept from the reachable offset -32750 (1310 consecutive accepts from
home) wraps to 32761 instead of subtracting exactly 25. -/
theorem accept_replicate (n : Nat) (z : Int)
    (hlo : -(2 ^ 15) ≤ z - 25 * n) (hhi : z ≤ 2 ^ 15 - 1) :
    (applyMotorActions ⟨z⟩
        (List.replicate n MotorAction.COIN_ACCEPT)).motor_position_offset
      = z - 25 * n := by
  induction n generalizing z with
  | zero => simp [applyMotorActions]
  | succ k ih =>
      rw [List.replicate_succ]
      rw [show applyMotorActions ⟨z⟩
          (MotorAction.COIN_ACCEPT :: List.replicate k MotorAction.COIN_ACCEPT)
          = applyMotorActions (Motor_DoAction ⟨z⟩ MotorAction.COIN_ACCEPT).1
            (List.replicate k MotorAction.COIN_ACCEPT) from rfl]
      have hstep : (Motor_DoAction ⟨z⟩ MotorAction.COIN_ACCEPT).1
          = ⟨z - 25⟩ := by
        unfold Motor_DoAction
        dsimp only
        congr 1
        show wrap16 (z - (MOTOR_45DEG_STEPS : Int)) = z - 25
        rw [show ((MOTOR_45DEG_STEPS : Nat) : Int) = 25 by decide]
        refine wrap16_eq _ ?_ ?_
        · have : (25 : Int) * (k + 1) = 25 * k + 25 := by ring
          push_cast at hlo
          omega
        · omega
      rw [hstep, ih (z - 25) (by push_cast at hlo ⊢; omega) (by omega)]
      push_cast
      ring

/-- C9 counterexample: the position offset is a 16-bit signed value, so a
coin accept from the reachable offset -32750 (1310 consecutive accepts from
home) wraps to 32761 instead of subtracting exactly 25. -/
theorem coin_accept_wraps_at_int16_boundary :
    (applyMotorActions ⟨0⟩
        (List.replicate 1310 MotorAction.COIN_ACCEPT)).motor_position_offset
      = -32750 ∧
    (Motor_DoAction ⟨-32750⟩
        MotorAction.COIN_ACCEPT).1.motor_position_offset = 32761 ∧
    (-32750 : Int) - 25 = -32775 ∧ (32761 : Int) ≠ -32775 := by
  refine ⟨?_, by decide, by decide, by decide⟩
  have h := accept_replicate 1310 0 (by norm_num) (by norm_num)
  norm_num at h
  exact h

/-- C9 amended: within the 16-bit signed range, accept subtracts exactly 25
and reject adds exactly 25 (outside it the offset wraps as `int16_t`
arithmetic does); reset always leaves the offset at exactly 0, rotating the
absolute value of the offset in the direction opposite to its sign and
performing no movement when already at 0; hence any sequence of actions
followed by a reset ends at offset 0. -/
theorem motor_offset_actions_int16 :
    (∀ m : MotorState, -(2 ^ 15) ≤ m.motor_position_offset - 25 →
        m.motor_position_offset ≤ 2 ^ 15 - 1 →
        (Motor_DoAction m MotorAction.COIN_ACCEPT).1.motor_position_offset
            = m.motor_position_offset - 25 ∧
        (Motor_DoAction m MotorAction.COIN_ACCEPT).2
            = [⟨MOTOR_45DEG_STEPS, false⟩]) ∧
    (∀ m : MotorState, -(2 ^ 15) ≤ m.motor_position_offset →
        m.motor_position_offset + 25 ≤ 2 ^ 15 - 1 →
        (Motor_DoAction m MotorAction.COIN_REJECT).1.motor_position_offset
            = m.motor_position_offset + 25 ∧
        (Motor_DoAction m MotorAction.COIN_REJECT).2
            = [⟨MOTOR_45DEG_STEPS, true⟩]) ∧
    (∀ m : MotorState, -(2 ^ 15) ≤ m.motor_position_offset →
        m.motor_position_offset ≤ 2 ^ 15 - 1 →
        (Motor_DoAction m MotorAction.MOTOR_RESET).1.motor_position_offset
            = 0 ∧
        (m.motor_position_offset = 0 →
          (Motor_DoAction m MotorAction.MOTOR_RESET).2 = []) ∧
        (m.motor_position_offset ≠ 0 →
          (Motor_DoAction m MotorAction.MOTOR_RESET).2
            = [⟨m.motor_position_offset.natAbs,
                decide (m.motor_position_offset < 0)⟩])) ∧
    (∀ ops : List MotorAction,
      (applyMotorActions ⟨0⟩
        (ops ++ [MotorAction.MOTOR_RESET])).motor_position_offset = 0) := by
  have h45 : (MOTOR_45DEG_STEPS : Int) = 25 := by decide
  refine ⟨?_, ?_, ?_, ?_⟩
  · intro m hlo hhi
    unfold Motor_DoAction Motor_Rotate
    rw [if_neg (by decide : ¬ MOTOR_45DEG_STEPS = 0)]
    refine ⟨?_, rfl⟩
    show wrap16 (m.motor_position_offset - (MOTOR_45DEG_STEPS : Int))
        = m.motor_position_offset - 25
    rw [h45]
    exact wrap16_eq _ hlo (by omega)
  · intro m hlo hhi
    unfold Motor_DoAction Motor_Rotate
    rw [if_neg (by decide : ¬ MOTOR_45DEG_STEPS = 0)]
    refine ⟨?_, rfl⟩
    show wrap16 (m.motor_position_offset + (MOTOR_45DEG_STEPS : Int))
        = m.motor_position_offset + 25
    rw [h45]
    exact wrap16_eq _ (by omega) hhi
  · intro m hlo hhi
    refine ⟨Motor_reset_offset_zero m, ?_, ?_⟩
    · intro hz
      unfold Motor_DoAction
      rw [if_pos hz]
    · intro hnz
      unfold Motor_DoAction Motor_Rotate
      dsimp only
      rw [if_neg hnz]
      have hp15 : (2 : Int) ^ 15 = 32768 := by norm_num
      rw [hp15] at hlo hhi
      have habs : (if m.motor_position_offset < 0
          then -m.motor_position_offset
          else m.motor_position_offset).toNat % 2 ^ 16
            = m.motor_position_offset.natAbs := by
        have hp16 : (2 : Nat) ^ 16 = 65536 := by norm_num
        split_ifs with hneg <;> (rw [hp16]; omega)
      have hdir : (!decide (m.motor_position_offset > 0))
          = decide (m.motor_position_offset < 0) := by
        rcases lt_trichotomy m.motor_position_offset 0 with hlt | hzz | hgt
        · simp [hlt, not_lt.mpr (le_of_lt hlt)]
        · exact absurd hzz hnz
        · simp [hgt, not_lt.mpr (le_of_lt hgt)]
      rw [habs, hdir,
        if_neg (by simp [Int.natAbs_eq_zero]; omega)]
  · intro ops
    unfold applyMotorActions
    rw [List.foldl_append]
    exact Motor_reset_offset_zero _

/-- Witness for C1: the dispense scenario evaluated at a concrete state
(box 3 selected, 400 cents inserted, a completed 10-pulse burst worth 100
cents) at tick time 1000 ms. -/
theorem session_complete_witness :
    (w1State.initialized = true ∧
     100 ≤ elapsed32 1000 w1State.last_check ∧
     w1State.pulse_count > 0 ∧
     COIN_TIMEOUT_MS ≤ elapsed32 1000 w1State.last_pulse_ms ∧
     PulsesToCents w1State.pulse_count > 0 ∧
     1 ≤ w1State.selected_box_id ∧
     w1State.selected_box_id ≤ w1State.box_count ∧
     w1State.box_count ≤ NUM_SHIFT_REGISTERS * 8 ∧
     w1State.honey_available = false ∧
     w1State.box_price (w1State.selected_box_id - 1) ≤
       w1State.total_cents + PulsesToCents w1State.pulse_count) ∧
    (((HoneyVending_Every100ms w1State 1000 42 65535).1.selected_box_id = 0 ∧
      (HoneyVending_Every100ms w1State 1000 42 65535).1.total_cents = 0 ∧
      (HoneyVending_Every100ms w1State 1000 42 65535).1.coins_detected
          = 0 ∧
      (HoneyVending_Every100ms w1State 1000 42 65535).1.honey_available
          = false ∧
      (HoneyVending_Every100ms w1State 1000 42 65535).1.pulse_count = 0) ∧
     (HoneyVending_Every100ms w1State 1000 42 65535).1.box_status
        (w1State.selected_box_id - 1) = false ∧
     (HoneyVending_Every100ms w1State 1000 42 65535).1.unlocked_box_id
        = w1State.selected_box_id ∧
     bitUnlocked (HoneyVending_Every100ms w1State 1000 42 65535).1
        (w1State.selected_box_id - 1) ∧
     Event.publishSystem
        ∈ (HoneyVending_Every100ms w1State 1000 42 65535).2 ∧
     Event.saveStatus ∈ (HoneyVending_Every100ms w1State 1000 42 65535).2 ∧
     Event.publishBox w1State.selected_box_id
        ∈ (HoneyVending_Every100ms w1State 1000 42 65535).2) :=
  ⟨⟨by decide, by decide, by decide, by decide, by decide, by decide,
    by decide, by decide, by decide, by decide⟩,
   session_complete_resets_within_tick w1State 1000 42 65535 (by decide)
     (by decide) (by decide) (by decide) (by decide) (by decide)
     (by decide) (by decide) (by decide) (by decide)⟩

/-- Witness for C2: pulse count 3 decodes to nothing and the tick at time
500 ms discards it without touching the session. -/
theorem pulses_witness :
    ((3 : Nat) ≤ 100 ∧ (3 : Nat) ≠ 1 ∧ (3 : Nat) ≠ 2 ∧ (3 : Nat) ≠ 5 ∧
     (3 : Nat) ≠ 10 ∧ (3 : Nat) ≠ 20 ∧ PulsesToCents 3 = 0) ∧
    (w2State.initialized = true ∧
     100 ≤ elapsed32 500 w2State.last_check ∧
     w2State.pulse_count > 0 ∧
     COIN_TIMEOUT_MS ≤ elapsed32 500 w2State.last_pulse_ms ∧
     PulsesToCents w2State.pulse_count = 0) ∧
    ((HoneyVending_Every100ms w2State 500 7 65535).1.total_cents
        = w2State.total_cents ∧
     (HoneyVending_Every100ms w2State 500 7 65535).1.coins_detected
        = w2State.coins_detected ∧
     (HoneyVending_Every100ms w2State 500 7 65535).1.pulse_count = 0 ∧
     (HoneyVending_Every100ms w2State 500 7 65535).2 = []) :=
  ⟨⟨by decide, by decide, by decide, by decide, by decide, by decide,
    PulsesToCents_exact_and_unknown_discarded.2.1 3 (by decide) (by decide)
      (by decide) (by decide) (by decide) (by decide)⟩,
   ⟨by decide, by decide, by decide, by decide, by decide⟩,
   PulsesToCents_exact_and_unknown_discarded.2.2 w2State 500 7 65535
     (by decide) (by decide) (by decide) (by decide) (by decide)⟩

/-- Witness for C3: starting from the all-locked initial state, unlocking
box 3 and then box 5 leaves box 5's line unlocked, box 3's line re-locked,
and box 5 tracked. -/
theorem at_most_one_witness :
    LockInv baseState ∧
    (UnlockBoxKey (applyLockOps baseState [LockOp.unlock 3 0]) 5
        10).unlocked_box_id = 5 ∧
    bitUnlocked (UnlockBoxKey (applyLockOps baseState [LockOp.unlock 3 0])
        5 10) (5 - 1) ∧
    ¬ bitUnlocked (UnlockBoxKey (applyLockOps baseState
        [LockOp.unlock 3 0]) 5 10) 2 :=
  ⟨by decide,
   ((at_most_one_box_unlocked baseState (by decide)).2
      [LockOp.unlock 3 0] 5 10 (by decide) (by decide) (by decide)).1,
   ((at_most_one_box_unlocked baseState (by decide)).2
      [LockOp.unlock 3 0] 5 10 (by decide) (by decide) (by decide)).2.1,
   ((at_most_one_box_unlocked baseState (by decide)).2
      [LockOp.unlock 3 0] 5 10 (by decide) (by decide) (by decide)).2.2
      2 (by decide) (by decide)⟩

/-- Witness for C4: box 3 unlocked at time 0 is still unlocked at the
evaluation at 59,999 ms and is re-locked at the evaluation at 60,000 ms. -/
theorem timeout_witness :
    (w4State.unlocked_box_id = 3 ∧ (1 : Nat) ≤ 3 ∧
     (3 : Nat) ≤ w4State.box_count ∧
     (3 : Nat) ≤ NUM_SHIFT_REGISTERS * 8 ∧
     w4State.unlock_start_ms = u32 0 ∧
     (0 : Nat) ≤ 59999 ∧ 59999 - 0 < 2 ^ 32 ∧
     (0 : Nat) ≤ 60000 ∧ 60000 - 0 < 2 ^ 32 ∧
     59999 < 0 + UNLOCK_DURATION_MS ∧ 0 + UNLOCK_DURATION_MS ≤ 60000) ∧
    CheckUnlockTimeout w4State 59999 = w4State ∧
    ((CheckUnlockTimeout w4State 60000).unlocked_box_id = 0 ∧
     (CheckUnlockTimeout w4State 60000).unlock_start_ms = 0 ∧
     ¬ bitUnlocked (CheckUnlockTimeout w4State 60000) (3 - 1)) :=
  ⟨⟨by decide, by decide, by decide, by decide, by decide, by decide,
    by decide, by decide, by decide, by decide, by decide⟩,
   (unlock_timeout_relocks_at_60s w4State 3 0 59999 (by decide) (by decide)
     (by decide) (by decide) (by decide) (by decide) (by decide)).1
     (by decide),
   (unlock_timeout_relocks_at_60s w4State 3 0 60000 (by decide) (by decide)
     (by decide) (by decide) (by decide) (by decide) (by decide)).2
     (by decide)⟩

/-- Witness for C5 amended: the reset zeroes all five fields on the
concrete base state; deselection with the out-of-range argument 99 on a
state holding 7 pending pulses zeroes four fields and keeps the pulse
counter at 7. -/
theorem reset_deselect_witness :
    ((some 99 = (none : Option Nat)) ∨ ∃ n, (some 99 : Option Nat)
        = some n ∧ ¬(1 ≤ n ∧ n ≤ w2State.box_count)) ∧
    ((CmndVendingReset baseState).1.total_cents = 0 ∧
     (CmndVendingReset baseState).1.coins_detected = 0 ∧
     (CmndVendingReset baseState).1.pulse_count = 0 ∧
     (CmndVendingReset baseState).1.honey_available = false ∧
     (CmndVendingReset baseState).1.selected_box_id = 0) ∧
    ((CmndVendingSelectBox w2State (some 99)).1.total_cents = 0 ∧
     (CmndVendingSelectBox w2State (some 99)).1.coins_detected = 0 ∧
     (CmndVendingSelectBox w2State (some 99)).1.honey_available = false ∧
     (CmndVendingSelectBox w2State (some 99)).1.selected_box_id = 0 ∧
     (CmndVendingSelectBox w2State (some 99)).1.pulse_count
        = w2State.pulse_count) :=
  ⟨Or.inr ⟨99, rfl, by decide⟩,
   reset_zeroes_five_deselect_zeroes_four.1 baseState,
   reset_zeroes_five_deselect_zeroes_four.2 w2State (some 99)
     (Or.inr ⟨99, rfl, by decide⟩)⟩

/-- Witness for C7: shrinking from 20 to 15 boxes publishes the retained
withdrawal for box 16's discovery topic and that message does not touch
box 15's discovery topic. -/
theorem discovery_shrink_witness :
    (15 : Nat) < 20 ∧
    (⟨discoveryTopic "tasmota" 16, "", true⟩ : MqttMsg)
      ∈ HoneyVending_CleanupOldBoxes true "tasmota" 20 15 ∧
    (⟨discoveryTopic "tasmota" 16, "", true⟩ : MqttMsg).topic
      ≠ discoveryTopic "tasmota" 15 :=
  ⟨by decide,
   (discovery_withdrawal_on_shrink "tasmota" 20 15 (by decide)).1 16
     (by decide) (by decide),
   (discovery_withdrawal_on_shrink "tasmota" 20 15 (by decide)).2.2 15
     (by decide) (by decide) _
     ((discovery_withdrawal_on_shrink "tasmota" 20 15 (by decide)).1 16
       (by decide) (by decide))⟩

/-- Witness for C8: on the base state, box 2 rejects prices 9 and 10,001
with no effect and accepts exactly 10 and exactly 10,000. -/
theorem set_price_witness :
    ((1 : Nat) ≤ 2 ∧ (2 : Nat) ≤ baseState.box_count ∧
     ((9 : Nat) < 10 ∨ (9 : Nat) > 10000) ∧
     ((10001 : Nat) < 10 ∨ (10001 : Nat) > 10000) ∧
     (10 : Nat) ≤ 10 ∧ (10 : Nat) ≤ 10000 ∧
     (10 : Nat) ≤ 10000 ∧ (10000 : Nat) ≤ 10000) ∧
    HoneyVending_SetPrice baseState 2 9 = (baseState, []) ∧
    HoneyVending_SetPrice baseState 2 10001 = (baseState, []) ∧
    ((HoneyVending_SetPrice baseState 2 10).1.box_price (2 - 1) = 10 ∧
     (HoneyVending_SetPrice baseState 2 10).2
        = [Event.savePrices, Event.publishBox 2]) ∧
    ((HoneyVending_SetPrice baseState 2 10000).1.box_price (2 - 1)
        = 10000 ∧
     (HoneyVending_SetPrice baseState 2 10000).2
        = [Event.savePrices, Event.publishBox 2]) :=
  ⟨⟨by decide, by decide, Or.inl (by decide), Or.inr (by decide),
    by decide, by decide, by decide, by decide⟩,
   (set_price_bounds_enforced baseState 2 (by decide) (by decide)).1 9
     (Or.inl (by decide)),
   (set_price_bounds_enforced baseState 2 (by decide) (by decide)).1 10001
     (Or.inr (by decide)),
   ⟨((set_price_bounds_enforced baseState 2 (by decide) (by decide)).2 10
      (by decide) (by decide)).1,
    ((set_price_bounds_enforced baseState 2 (by decide) (by decide)).2 10
      (by decide) (by decide)).2.2⟩,
   ⟨((set_price_bounds_enforced baseState 2 (by decide) (by decide)).2
      10000 (by decide) (by decide)).1,
    ((set_price_bounds_enforced baseState 2 (by decide) (by decide)).2
      10000 (by decide) (by decide)).2.2⟩⟩

/-- Witness for C9 amended: accept from offset -50 lands at -75, reset from
-50 rotates 50 steps to the right and lands at 0, reset at home moves
nothing, and accept-reject-reset ends at 0. -/
theorem motor_witness :
    (-(2 ^ 15) ≤ (-50 : Int) - 25 ∧ (-50 : Int) ≤ 2 ^ 15 - 1 ∧
     -(2 ^ 15) ≤ (-50 : Int) ∧ (-50 : Int) ≠ 0 ∧
     -(2 ^ 15) ≤ (0 : Int) ∧ (0 : Int) ≤ 2 ^ 15 - 1) ∧
    (Motor_DoAction ⟨-50⟩ MotorAction.COIN_ACCEPT).1.motor_position_offset
        = (-50 : Int) - 25 ∧
    (Motor_DoAction ⟨-50⟩ MotorAction.COIN_ACCEPT).2
        = [⟨MOTOR_45DEG_STEPS, false⟩] ∧
    (Motor_DoAction ⟨-50⟩
        MotorAction.MOTOR_RESET).1.motor_position_offset = 0 ∧
    (Motor_DoAction ⟨-50⟩ MotorAction.MOTOR_RESET).2
        = [⟨(-50 : Int).natAbs, decide ((-50 : Int) < 0)⟩] ∧
    (Motor_DoAction ⟨0⟩ MotorAction.MOTOR_RESET).2 = [] ∧
    (applyMotorActions ⟨0⟩ ([MotorAction.COIN_ACCEPT,
        MotorAction.COIN_REJECT]
      ++ [MotorAction.MOTOR_RESET])).motor_position_offset = 0 :=
  ⟨⟨by decide, by decide, by decide, by decide, by decide, by decide⟩,
   (motor_offset_actions_int16.1 ⟨-50⟩ (by decide) (by decide)).1,
   (motor_offset_actions_int16.1 ⟨-50⟩ (by decide) (by decide)).2,
   (motor_offset_actions_int16.2.2.1 ⟨-50⟩ (by decide) (by decide)).1,
   (motor_offset_actions_int16.2.2.1 ⟨-50⟩ (by decide)
     (by decide)).2.2 (by decide),
   (motor_offset_actions_int16.2.2.1 ⟨0⟩ (by decide) (by decide)).2.1
     (by decide),
   motor_offset_actions_int16.2.2.2
     [MotorAction.COIN_ACCEPT, MotorAction.COIN_REJECT]⟩

/-- Witness for C10: with box 5 tracked as unlocked and the box count at 3,
the timeout check at time 999,999 changes nothing, and the box-count change
that created such a state left the lock fields untouched. -/
theorem stale_witness :
    (w10State.box_count < w10State.unlocked_box_id ∧
     (1 : Nat) ≤ 3 ∧ (3 : Nat) ≤ MAX_HONEY_BOX_COUNT) ∧
    CheckUnlockTimeout w10State 999999 = w10State ∧
    ((HoneyVending_SetBoxCount w4State 3 0 false
        "x").1.unlocked_box_id = w4State.unlocked_box_id ∧
     (HoneyVending_SetBoxCount w4State 3 0 false
        "x").1.unlock_start_ms = w4State.unlock_start_ms ∧
     (HoneyVending_SetBoxCount w4State 3 0 false
        "x").1.shift_reg_state = w4State.shift_reg_state ∧
     (HoneyVending_SetBoxCount w4State 3 0 false "x").1.box_count = 3) :=
  ⟨⟨by decide, by decide, by decide⟩,
   stale_unlocked_box_never_relocked.1 w10State 999999 (by decide),
   stale_unlocked_box_never_relocked.2 w4State 3 0 false "x"
     (by decide) (by decide)⟩

end Beekeeper
